import Mathlib

/-!
Verification of the page-query, caching and table-extraction core of the
history-visualized repository (`query.py`, `nations/info.py`,
`presidents/executive_orders.py`), as a shallow embedding in Lean.

External collaborators (the Wikipedia search API, the filesystem, the
`pycountry` nation database, HTML parsing) are modelled as explicit function
parameters; everything else is translated directly from the Python source.
Python exceptions are modelled by the `PyError` type and `Except` results.
-/

set_option autoImplicit false

deriving instance DecidableEq for Except

namespace HistoryVisualized

/-- Python exceptions raised by the embedded code. -/
inductive PyError where
  | valueError (msg : String)
  | indexError
  | notADirectoryError (msg : String)
  | externalError
  deriving DecidableEq, Repr

/-! ## String helpers

Python string primitives used by the source, re-implemented over `List Char`
so that every definition is executable and kernel-reducible. -/

/-- Python `str.lower` restricted to ASCII (all data handled by the repo is
ASCII after its own non-ASCII cleanup passes). -/
def asciiLower (c : Char) : Char :=
  if 65 ≤ c.toNat ∧ c.toNat ≤ 90 then Char.ofNat (c.toNat + 32) else c

/-- Python `str.lower`. -/
def pyLower (s : String) : String := String.mk (s.toList.map asciiLower)

/-- Characters of the Python `\s` class / `str.strip` default set
(space, tab, newline, carriage return, vertical tab, form feed). -/
def pyIsSpace (c : Char) : Bool :=
  c = ' ' ∨ c = Char.ofNat 9 ∨ c = Char.ofNat 10 ∨ c = Char.ofNat 13 ∨
    c = Char.ofNat 11 ∨ c = Char.ofNat 12

/-- Python `str.strip()`. -/
def pyStrip (s : String) : String :=
  String.mk (((s.toList.dropWhile pyIsSpace).reverse.dropWhile pyIsSpace).reverse)

/-- Python `str.split(sep)` for a one-character separator: splits on every
occurrence, keeping empty pieces (`"".split(sep) = [""]`). -/
def splitOnChar (sep : Char) : List Char → List (List Char)
  | [] => [[]]
  | c :: rest =>
    let r := splitOnChar sep rest
    if c = sep then [] :: r
    else
      match r with
      | [] => [[c]]
      | h :: t => (c :: h) :: t

/-- Python `str.split(sep)` on strings. -/
def pySplit (sep : Char) (s : String) : List String :=
  (splitOnChar sep s.toList).map String.mk

/-- Substring test on character lists (Python `sub in s` for strings). -/
def isSubStrList (sub : List Char) : List Char → Bool
  | [] => sub.isEmpty
  | c :: rest => sub.isPrefixOf (c :: rest) || isSubStrList sub rest

/-- Python `sub in s` for strings (case-sensitive substring test). -/
def isSubStr (sub s : String) : Bool := isSubStrList sub.toList s.toList

/-- `bool(re.search(r'\d', s))`: does the string contain a decimal digit? -/
def hasDigit (s : String) : Bool := s.toList.any Char.isDigit

/-- Four consecutive digits starting at the head of the list, if present. -/
def fourDigitsHere (cs : List Char) : Option String :=
  match cs with
  | a :: b :: c :: d :: _ =>
    if a.isDigit ∧ b.isDigit ∧ c.isDigit ∧ d.isDigit then
      some (String.mk [a, b, c, d])
    else none
  | _ => none

/-- `re.findall('\d{4}', s)[0]` as an `Option`: the leftmost run of four
consecutive digits in `s`, or `none` when the regex finds no match. -/
def firstFourDigits (s : String) : Option String :=
  go s.toList
where
  go : List Char → Option String
    | [] => none
    | c :: rest =>
      match fourDigitsHere (c :: rest) with
      | some r => some r
      | none => go rest

/-- Index of the last `'/'` in a character list, if any. -/
def lastSlashIdx : List Char → Option Nat
  | [] => none
  | c :: rest =>
    match lastSlashIdx rest with
    | some k => some (k + 1)
    | none => if c = '/' then some 0 else none

/-- Python `os.path.dirname` (POSIX): everything up to the last `'/'`,
with trailing slashes stripped unless the head is all slashes. -/
def dirname (p : String) : String :=
  let cs := p.toList
  match lastSlashIdx cs with
  | none => ""
  | some k =>
    let head := cs.take (k + 1)
    if head.all (· = '/') then String.mk head
    else String.mk ((head.reverse.dropWhile (· = '/')).reverse)

/-! ## `query.py`: resource lists

`_NATION_DICT` is generated from the external `pycountry` database, so it is
a parameter (`nd : List (List String)`, the dictionary values in iteration
order) of every definition that consults it.  The other two resource lists
are generated from literals in `query.py` and are embedded directly. -/

/-- `_REPLACEMENT_QUERIES` as built by `_generate_replacement_queries`. -/
def _REPLACEMENT_QUERIES : List (List String) :=
  [["nation", "country", "countries", "nations", "sovereign states"],
   ["president", "presidents", "prime minister", "prime ministers"]]

/-- `_ALLOWED_SPACED_QUERIES` as built by `_generate_allowed_spaced_queries`. -/
def _ALLOWED_SPACED_QUERIES : List String :=
  ["prime minister", "prime ministers", "united states"]

/-- `is_valid_country`: the term, lowercased, occurs in some value list of
the nation dictionary.  (The `_VALIDATED_CACHE` in the source is written but
never read, so it has no observable behaviour and is omitted.) -/
def is_valid_country (nd : List (List String)) (term : String) : Bool :=
  nd.any (fun vp => vp.contains (pyLower term))

/-! ## `query.py`: Wikipedia search

The search API `wk.search` is abstracted as `ws : String → Nat → List String`
(query text, result limit, ordered result titles). -/

/-- `_merge_query_results`: one search per term, concatenated.
(The lowercased `_search_query` computed in the source is dead code: the
search is performed with the original `term`.) -/
def _merge_query_results (ws : String → Nat → List String)
    (terms : List String) (thresh : Nat) : List String :=
  (terms.map (fun t => ws t thresh)).flatten

/-- `search_multiple_words`: with a single word, a raw search; otherwise the
merged results filtered to those containing every query word as a
case-insensitive substring. -/
def search_multiple_words (ws : String → Nat → List String)
    (words : List String) (thresh : Nat) : List String :=
  match words with
  | [w] => ws w thresh
  | _ =>
    let complete := _merge_query_results ws words thresh
    complete.filter (fun out => words.all (fun t => isSubStr (pyLower t) (pyLower out)))

/-- The multi-word splitting step at the top of `list_of_search_results`:
terms containing a space are split on spaces unless registered in
`_ALLOWED_SPACED_QUERIES`. -/
def splitSpaced (terms : List String) : List String :=
  terms.foldr
    (fun t acc =>
      if t.toList.contains ' ' ∧ ¬ _ALLOWED_SPACED_QUERIES.contains t then
        pySplit ' ' t ++ acc
      else t :: acc)
    []

/-- The plain-search body of `list_of_search_results` when `bypass` is false:
lowercase the terms, append the word `list`, search, and deduplicate
(`list(set(...))`; the set iteration order of Python is unspecified, so only
the membership of this list is meaningful). -/
def plainOutput (ws : String → Nat → List String) (terms : List String) : List String :=
  match terms with
  | [t] => (search_multiple_words ws [pyLower t, "list"] 100).dedup
  | _ => (search_multiple_words ws (terms.map pyLower ++ ["list"]) 100).dedup

/-- First term (in order) that occurs in some value list of the dictionary,
together with that first value list — the fan-out trigger scan shared by the
nation and replacement-query blocks of `_parse_query_for_conditions`. -/
def findFirstMatch (dict : List (List String)) : List String → Option (String × List String)
  | [] => none
  | t :: rest =>
    match dict.find? (fun vp => vp.contains t) with
    | some vp => some (t, vp)
    | none => findFirstMatch dict rest

/-- The fan-out loop of `_parse_query_for_conditions`: for each code of the
matched value list, append it to the filtered term list, resolve (via
`inner`, a `bypass=False` recursive call), then remove it again with Python
`list.remove` (first occurrence).  Returns the concatenated outputs together
with the trace of term lists passed to `inner`; `none` propagates fuel
exhaustion of `inner`. -/
def fanout (inner : List String → Option (List String × List (List String)))
    (fts : List String) : List String → Option (List String × List (List String))
  | [] => some ([], [])
  | code :: rest => do
    let (o, tr) ← inner (fts ++ [code])
    let (os, trs) ← fanout inner ((fts ++ [code]).erase code) rest
    some (o ++ os, tr ++ trs)

/-- `_parse_query_for_conditions`, parameterised by the `bypass=False`
recursive call `inner`.  First the nation fan-out, then (unless
`skip_replacement_queries` was passed) the replacement-query fan-out, else
fall through to a plain search. -/
def _parse_query_for_conditions
    (inner : List String → Option (List String × List (List String)))
    (nd : List (List String)) (skip_replacement_queries : Bool)
    (terms : List String) : Option (List String × List (List String)) :=
  match findFirstMatch nd terms with
  | some (t, vp) => fanout inner (terms.erase t) vp
  | none =>
    if skip_replacement_queries then inner terms
    else
      match findFirstMatch _REPLACEMENT_QUERIES terms with
      | some (t, g) => fanout inner (terms.erase t) g
      | none => inner terms

/-- `list_of_search_results`.  `fuel` bounds the recursion depth so that
termination is a theorem rather than an assumption: `none` means the fuel
ran out before the resolution completed.  The second component of the result
is the trace of term lists passed to `bypass=False` calls (the actual plain
searches performed).  The `PermissionError` guard on a user-supplied
`bypass=False` is a call-discipline check with no effect on resolution
results and is not modelled. -/
def list_of_search_results (ws : String → Nat → List String)
    (nd : List (List String)) :
    Nat → Bool → Bool → List String → Option (List String × List (List String))
  | 0, _, _, _ => none
  | fuel + 1, bypass, skip_replacement_queries, terms =>
    let sterms := splitSpaced terms
    if bypass then
      _parse_query_for_conditions
        (fun ts => list_of_search_results ws nd fuel false false ts)
        nd skip_replacement_queries sterms
    else some (plainOutput ws sterms, [terms])

/-! ## `query.py`: `process_page`

The resolution part of `process_page` (lines 308–343).  The search results
for the given terms are passed in as `cands` (the source obtains them from
`list_of_search_results(..., skip_replacement_queries=True)`; the source
calls it again, with the same deterministic result, in the fallback branch).
The application of `processing_function` to the resolved value is outside
the resolution contract, so the resolved value itself is returned: either a
single title, or — in the no-match fallback branch, which assigns the whole
result list — the entire candidate list. -/

/-- `_SUPPORTED_LIST_QUERIES` as assigned inside `process_page`. -/
def _SUPPORTED_LIST_QUERIES : List String :=
  ["us presidents", "sovereign states formation"]

/-- What `process_page` resolves to before applying `processing_function`:
a single page title, or a whole list of titles. -/
inductive PageResolution where
  | title (t : String)
  | titles (ts : List String)
  deriving DecidableEq, Repr

/-- The per-candidate match test of the `specific_query` loop: a
case-sensitive substring check, then a case-insensitive equality check,
both selecting the same candidate. -/
def specificQueryMatch (q c : String) : Bool :=
  isSubStr q c || pyLower q = pyLower c

/-- `process_page`, resolution part. -/
def process_page (cands : List String) (search_terms : List String)
    (specific_query : Option String) : Except PyError PageResolution :=
  match search_terms.find? (fun t => _SUPPORTED_LIST_QUERIES.contains t) with
  | some t =>
    if t = "us presidents" then
      .ok (.title "List of presidents of the United States")
    else .ok (.title "List of sovereign states by dates of formation")
  | none =>
    match specific_query with
    | some q =>
      match cands.find? (fun c => specificQueryMatch q c) with
      | some c => .ok (.title c)
      | none => .ok (.titles cands)
    | none =>
      match cands with
      | [] => .error .indexError
      | c :: _ => .ok (.title c)

/-! ## `query.py`: `_pretty_parse` and `parse_page_information` -/

/-- Length of the (greedy) match of `\[.{0,3}\]` starting just after an
opening bracket: the largest `k ≤ 3` such that the next `k` characters are
not newlines and are followed by `]`.  Returns the total number of
characters to drop after the `[` (the `k` matched characters plus the
closing bracket). -/
def citeMatchLen (cs : List Char) : Option Nat :=
  ([3, 2, 1, 0].find? (fun k =>
      decide (cs.get? k = some ']') && (cs.take k).all (fun c => c ≠ Char.ofNat 10))).map
    (· + 1)

/-- Scanner for `re.sub('\[.{0,3}\]', '', item)`: while the first argument
is positive, characters belong to a match being deleted; at zero, an opening
bracket starting a match schedules its length for deletion. -/
def stripCiteSkip : Nat → List Char → List Char
  | _, [] => []
  | k + 1, _ :: rest => stripCiteSkip k rest
  | 0, c :: rest =>
    if c = '[' then
      match citeMatchLen rest with
      | some k => stripCiteSkip k rest
      | none => c :: stripCiteSkip 0 rest
    else c :: stripCiteSkip 0 rest

/-- `re.sub('\[.{0,3}\]', '', item)`: remove bracketed links of at most three
characters (`.` does not match a newline). -/
def stripCiteLinks (cs : List Char) : List Char := stripCiteSkip 0 cs

/-- `re.sub('\.(?!\s|$|"|\')', '. ', item)`: insert a space after every
period not already followed by whitespace, end of string, a double quote or
an apostrophe (character codes 34 and 39). -/
def addSpaceAfterPeriods : List Char → List Char
  | [] => []
  | '.' :: [] => ['.']
  | '.' :: c :: rest =>
    if pyIsSpace c ∨ c = Char.ofNat 34 ∨ c = Char.ofNat 39 then
      '.' :: addSpaceAfterPeriods (c :: rest)
    else '.' :: ' ' :: addSpaceAfterPeriods (c :: rest)
  | c :: rest => c :: addSpaceAfterPeriods rest

/-- `re.sub(r'[^\x00-\x7F]+', '', item)`: delete all non-ASCII characters. -/
def stripNonAscii (cs : List Char) : List Char := cs.filter (fun c => c.toNat ≤ 127)

/-- `re.sub('\n', ', ', item)`: replace newlines by comma-space. -/
def newlineToCommaSpace (cs : List Char) : List Char :=
  cs.flatMap (fun c => if c = Char.ofNat 10 then [',', ' '] else [c])

/-- `_pretty_parse`.  (The `item.replace("\'", "'")` step of the source
replaces an apostrophe by itself — the escape is redundant inside a Python
double-quoted literal — and is therefore the identity.) -/
def _pretty_parse (item : String) : String :=
  String.mk (newlineToCommaSpace (stripNonAscii
    (addSpaceAfterPeriods (stripCiteLinks item.toList))))

/-- Outcome of `wk.page(term, auto_suggest=False)`: a page URL, a
`wikipedia.DisambiguationError`, or some other exception (re-raised by the
source unchanged). -/
inductive WkPageResult where
  | success (url : String)
  | disambiguation
  | failure (e : PyError)
  deriving DecidableEq, Repr

/-- `parse_page_information`.  The network fetch and HTML parsing
(`requests.get` + `BeautifulSoup` + `find_all('p')`) are abstracted by
`paragraphs : String → List String`, the paragraph texts of the fetched
page.  The `isinstance(term, str)` guard is vacuous here because the input
is typed as a string. -/
def parse_page_information (wkPage : String → WkPageResult)
    (paragraphs : String → List String) (term : String) : Except PyError String :=
  match wkPage term with
  | .disambiguation =>
    .error (.valueError
      "Arrived at a Wikipedia disambiguation. Try again with a pre-parsed specific term.")
  | .failure e => .error e
  | .success url =>
    let complete := (paragraphs url).foldl
      (fun acc p => if ["Sources:"].contains (pyStrip p) then acc else acc ++ pyStrip p) ""
    .ok (_pretty_parse complete)

/-! ## `query.py`: `InformationLoader`

The loader is a context manager over a pickle file.  The filesystem is
modelled as `FS α : String → Option (Option α)`: `none` means the path does
not exist, `some v` means a file holding the pickled Python value `v`
(itself an `Option α`, because `self.data` is initialised to `None`).
Pickling is language-native serialization; its round-trip fidelity is the
identity in this model.  `process_function` is abstract (a subclass
responsibility), modelled by the pure value `producer : α` it returns; the
number of times it is invoked is returned explicitly so that
exactly-once claims are statable. -/

/-- The mutable state of an `InformationLoader` instance. -/
structure LoaderState (α : Type) where
  save_location : String
  overwrite_data : Bool
  is_loaded : Bool
  data : Option α
  deriving DecidableEq, Repr

/-- The filesystem visible to the loader. -/
abbrev FS (α : Type) := String → Option (Option α)

/-- Write a pickled value at a path. -/
def fsWrite {α : Type} (fs : FS α) (path : String) (v : Option α) : FS α :=
  fun x => if x = path then some v else fs x

/-- `InformationLoader.__init__`: reject an empty save location, then reject
a save location whose directory does not exist (`os.path.exists` is the
`pathExists` parameter); otherwise the initial state.  No producer call and
no file write occurs: the signature has no access to either. -/
def loaderInit (α : Type) (pathExists : String → Bool) (save_location : String)
    (overwrite_data : Bool) : Except PyError (LoaderState α) :=
  if save_location = "" then
    .error (.valueError
      "You need to provide a save location where the saved information files will reside.")
  else if ¬ pathExists (dirname save_location) then
    .error (.notADirectoryError
      "The directory of the provided path does not exist, you need to provide an existing path directory.")
  else .ok ⟨save_location, overwrite_data, false, none⟩

/-- `InformationLoader._load_or_parse` (the body of `__enter__`): returns
the Python value of the expression returned, the updated state, and the
number of `process_function` invocations. -/
def _load_or_parse {α : Type} (fs : FS α) (producer : α) (st : LoaderState α) :
    Option α × LoaderState α × Nat :=
  if st.is_loaded then (st.data, st, 0)
  else if st.overwrite_data then
    let d : Option α := some producer
    (d, { st with data := d, is_loaded := true }, 1)
  else
    match fs st.save_location with
    | some stored => (stored, { st with data := stored, is_loaded := true }, 0)
    | none =>
      let d : Option α := some producer
      (d, { st with data := d, is_loaded := true }, 1)

/-- `InformationLoader.__exit__`: pickle `self.data` to the save location
when no file exists there yet, or when one exists and `overwrite_data` is
set; otherwise leave the filesystem alone. -/
def exitSave {α : Type} (fs : FS α) (st : LoaderState α) : FS α :=
  match fs st.save_location with
  | none => fsWrite fs st.save_location st.data
  | some _ => if st.overwrite_data then fsWrite fs st.save_location st.data else fs

/-- Result of one `with loader as data:` block. -/
structure UseResult (α : Type) where
  result : Option α
  state : LoaderState α
  fs : FS α
  calls : Nat

/-- One `with` block: `__enter__` (`_load_or_parse`) then `__exit__`. -/
def scopedUse {α : Type} (fs : FS α) (producer : α) (st : LoaderState α) : UseResult α :=
  let r := _load_or_parse fs producer st
  ⟨r.1, r.2.1, exitSave fs r.2.1, r.2.2⟩

/-- `k` successive `with` blocks on the same loader object, accumulating the
total number of `process_function` invocations. -/
def scopedUses {α : Type} (producer : α) : Nat → FS α → LoaderState α → LoaderState α × FS α × Nat
  | 0, fs, st => (st, fs, 0)
  | k + 1, fs, st =>
    let u := scopedUse fs producer st
    let r := scopedUses producer k u.fs u.state
    (r.1, r.2.1, u.calls + r.2.2)

/-! ## `nations/info.py`: `nation_founding_date_processing_function`

The HTML table is abstracted to its cell texts: a page is a list of rows
(`<tr>`), a row a list of cell texts (`<td>`, the `value.text` strings).
The nation dictionary behind `is_valid_country` is the `valid` parameter
(instantiate with `is_valid_country nd`). -/

/-- `re.sub('\xa0', '', s)`: delete all non-breaking spaces. -/
def removeNbsp (s : String) : String :=
  String.mk (s.toList.filter (fun c => c ≠ Char.ofNat 160))

/-- Length of the match of the non-greedy `\[(.*?)\]` starting just after an
opening bracket: characters up to and including the nearest `]`, failing on
a newline (which `.` does not match) or the end of the string. -/
def bracketSpan : List Char → Option Nat
  | [] => none
  | c :: rest =>
    if c = ']' then some 1
    else if c = Char.ofNat 10 then none
    else (bracketSpan rest).map (· + 1)

/-- Scanner for `re.sub('\[(.*?)\]', '', s)`, with the same skip-counter
scheme as `stripCiteSkip`. -/
def stripBracketsSkip : Nat → List Char → List Char
  | _, [] => []
  | k + 1, _ :: rest => stripBracketsSkip k rest
  | 0, c :: rest =>
    if c = '[' then
      match bracketSpan rest with
      | some k => stripBracketsSkip k rest
      | none => c :: stripBracketsSkip 0 rest
    else c :: stripBracketsSkip 0 rest

/-- `re.sub('\[(.*?)\]', '', s)` on character lists. -/
def stripBrackets (cs : List Char) : List Char := stripBracketsSkip 0 cs

/-- Lines 112–114: clean a cell text into a candidate nation name. -/
def potentialNationOf (c : String) : String :=
  String.mk (stripNonAscii (stripBrackets (pyStrip (removeNbsp c)).toList))

/-- Lines 52–58: `value.text.split('\n')` with the blank entries removed. -/
def cellLines (s : String) : List String :=
  (pySplit (Char.ofNat 10) s).filter (fun v => v ≠ "")

/-- The two tracker lists threaded through the row scan. -/
structure ExtractState where
  nations : List String
  dates : List String
  deriving DecidableEq, Repr

/-- Outcome of the `if is_nation:` block (lines 61–105) for one cell:
leave the row (`brk`), move to the next cell (`cont`), fall through to the
nation check (`fall` — when `is_nation` was never set, or after the
`indx == 3` date append, which does not `break`), or raise (`err`, the
re-raised `IndexError` of the `indx == 3` branch). -/
inductive CellAction where
  | brk (st : ExtractState)
  | cont (st : ExtractState)
  | fall (st : ExtractState)
  | err

/-- The `if is_nation:` block of the cell loop. -/
def dateBlock (isNation : Option String) (indx : Nat) (cv : List String)
    (st : ExtractState) : CellAction :=
  match isNation with
  | none => .fall st
  | some nat =>
    if nat = "Iceland" then .brk { st with dates := st.dates ++ ["1 July 1845"] }
    else if indx = 1 then
      match cv with
      | [] => .cont st
      | c :: _ => if hasDigit c then .brk { st with dates := st.dates ++ [c] } else .cont st
    else if indx = 2 then
      if nat = "China" then .cont st
      else
        match cv with
        | [] => .cont st
        | c :: _ => if hasDigit c then .brk { st with dates := st.dates ++ [c] } else .cont st
    else if indx = 3 then
      match cv with
      | [] => .err
      | c :: _ => .fall { st with dates := st.dates ++ [c] }
    else .cont st

/-- Outcome of the nation check (lines 107–128) for one cell. -/
inductive NationDecision where
  | brk (st : ExtractState)
  | cont (isNation : Option String) (st : ExtractState)

/-- Lines 107–128: empty cell ends the row; a valid country already seen
ends the row; a new valid country (with the Cabo Verde rename) is appended
to the tracker and becomes `is_nation`; anything else moves on. -/
def nationCheck (valid : String → Bool) (isNation : Option String)
    (cv : List String) (st : ExtractState) : NationDecision :=
  match cv with
  | [] => .brk st
  | c :: _ =>
    let potential := potentialNationOf c
    if valid (pyStrip potential) then
      if st.nations.contains potential then .brk st
      else
        let potential := if pyStrip potential = "Cabo Verde" then "Cape Verde" else potential
        .cont (some potential) { st with nations := st.nations ++ [potential] }
    else .cont isNation st

/-- The cell loop of one row (`for indx, value in enumerate(data_values)`). -/
def processCells (valid : String → Bool) :
    Nat → Option String → List String → ExtractState → Except PyError ExtractState
  | _, _, [], st => .ok st
  | indx, isNation, cell :: rest, st =>
    let cv := cellLines cell
    match dateBlock isNation indx cv st with
    | .err => .error .indexError
    | .brk st' => .ok st'
    | .cont st' => processCells valid (indx + 1) isNation rest st'
    | .fall st' =>
      match nationCheck valid isNation cv st' with
      | .brk st'' => .ok st''
      | .cont isNation' st'' => processCells valid (indx + 1) isNation' rest st''

/-- The row loop (`for table in tables`), with `is_nation` reset per row. -/
def processRows (valid : String → Bool) :
    List (List String) → ExtractState → Except PyError ExtractState
  | [], st => .ok st
  | row :: rest, st => do
    let st' ← processCells valid 0 none row st
    processRows valid rest st'

/-- The manual repeat-skip list of the final loop (line 135). -/
def skipNations : List String := ["Czechia", "Palestine"]

/-- Python dict assignment `d[k] = v` on an insertion-ordered
association list. -/
def dictInsert (l : List (String × String)) (k v : String) : List (String × String) :=
  if l.any (fun p => p.1 = k) then
    l.map (fun p => if p.1 = k then (k, v) else p)
  else l ++ [(k, v)]

/-- Lines 133–145: the year-extraction loop over `zip(nations, dates)`.
A date with no four-digit year raises the re-raised `IndexError`, aborting
the whole extraction. -/
def computeFoundingDatesGo :
    List (String × String) → List (String × String) → Except PyError (List (String × String))
  | acc, [] => .ok acc
  | acc, (nation, date) :: rest =>
    if skipNations.contains nation then computeFoundingDatesGo acc rest
    else
      match firstFourDigits date with
      | none => .error .indexError
      | some year => computeFoundingDatesGo (dictInsert acc nation year) rest

/-- The final dictionary-building phase of the extractor. -/
def computeFoundingDates (ps : List (String × String)) :
    Except PyError (List (String × String)) :=
  computeFoundingDatesGo [] ps

/-- `nation_founding_date_processing_function`, from the cell texts of the
fetched table rows to the `founding_dates` dictionary. -/
def nation_founding_date_processing_function (valid : String → Bool)
    (rows : List (List String)) : Except PyError (List (String × String)) := do
  let st ← processRows valid rows ⟨[], []⟩
  computeFoundingDates (st.nations.zip st.dates)

/-! ## Concrete instantiations used by counterexamples and witnesses -/

/-- A search API that returns no results (the traces of the resolver do not
depend on the search results). -/
def wsEmpty : String → Nat → List String := fun _ _ => []

/-- A stand-in nation dictionary for the concrete scenarios (the real
`_NATION_DICT` is generated from the external `pycountry` database). -/
def scenarioNationDict : List (List String) := [["france"], ["japan"]]

/-! ## Helper lemmas -/

/-- `List.find?` returns the first element satisfying the predicate. -/
theorem find?_eq_some_first {α : Type} (p : α → Bool) :
    ∀ (l : List α) (c : α), l.find? p = some c →
      ∃ i : Fin l.length, l.get i = c ∧ p c = true ∧
        ∀ j (hj : j < i.val), p (l.get ⟨j, lt_trans hj i.isLt⟩) = false := by
  intro l
  induction l with
  | nil => intro c h; simp [List.find?] at h
  | cons a rest ih =>
    intro c h
    by_cases hp : p a
    · rw [List.find?_cons_of_pos _ hp] at h
      injection h with h
      subst h
      exact ⟨⟨0, by simp⟩, rfl, hp, fun j hj => absurd hj (Nat.not_lt_zero j)⟩
    · rw [List.find?_cons_of_neg _ (by simpa using hp)] at h
      obtain ⟨i, hget, hc, hfirst⟩ := ih c h
      refine ⟨⟨i.val + 1, Nat.succ_lt_succ i.isLt⟩, hget, hc, ?_⟩
      intro j hj
      match j with
      | 0 => simp [hp]
      | j + 1 => exact hfirst j (Nat.lt_of_succ_lt_succ hj)

/-! ## Claim theorems -/

/-- C2 (counterexample): with candidates `["HINT", "xhinty"]` and hint
`"hint"`, the claim predicts the first substring match `"xhinty"` (since
`"hint"` is not a case-sensitive substring of `"HINT"`), but `process_page`
resolves to `"HINT"`, because it checks substring-or-case-insensitive-equal
per candidate instead of preferring substring matches globally; and with a
hint matching no candidate, it falls back to the whole candidate list, not
to the first raw search result. -/
theorem process_page_hint_counterexample :
    process_page ["HINT", "xhinty"] ["q"] (some "hint") = .ok (.title "HINT") ∧
    (["HINT", "xhinty"].find? (fun c => isSubStr "hint" c)) = some "xhinty" ∧
    ("HINT" : String) ≠ "xhinty" ∧
    process_page ["Alpha", "Beta"] ["q"] (some "zzz") = .ok (.titles ["Alpha", "Beta"]) ∧
    (Except.ok (PageResolution.titles ["Alpha", "Beta"]) : Except PyError PageResolution) ≠
      .ok (.title "Alpha") := by
  decide

/-- C2 (amended): outside the special-cased supported queries, when a hint
is supplied the resolved page is the first candidate that contains the hint
as a case-sensitive substring or equals it case-insensitively (the two
checks interleaved per candidate); when no candidate matches, resolution
falls back to the entire raw search-result list. -/
theorem process_page_hint_resolution (cands terms : List String) (q : String)
    (hsup : terms.find? (fun t => _SUPPORTED_LIST_QUERIES.contains t) = none) :
    (∀ c, process_page cands terms (some q) = .ok (.title c) →
        ∃ i : Fin cands.length, cands.get i = c ∧ specificQueryMatch q c = true ∧
          ∀ j (hj : j < i.val), specificQueryMatch q (cands.get ⟨j, lt_trans hj i.isLt⟩) = false) ∧
    ((∀ c ∈ cands, specificQueryMatch q c = false) →
        process_page cands terms (some q) = .ok (.titles cands)) := by
  constructor
  · intro c hc
    rw [process_page, hsup] at hc
    cases hfind : cands.find? (fun c => specificQueryMatch q c) with
    | none => rw [hfind] at hc; exact absurd hc (by simp)
    | some c₀ =>
      rw [hfind] at hc
      have : c₀ = c := by
        have := hc
        simp only [Except.ok.injEq, PageResolution.title.injEq] at this
        exact this
      subst this
      exact find?_eq_some_first _ cands c₀ hfind
  · intro hnone
    rw [process_page, hsup]
    have : cands.find? (fun c => specificQueryMatch q c) = none :=
      List.find?_eq_none.mpr (fun c hc => by simp [hnone c hc])
    rw [this]

/-- C2 (amended, witness): the amended resolution at concrete inputs — with
no matching candidate, the whole candidate list is the fallback. -/
theorem process_page_hint_resolution_witness :
    ((["q"] : List String).find? (fun t => _SUPPORTED_LIST_QUERIES.contains t) = none) ∧
    (∀ c ∈ (["Alpha", "Beta"] : List String), specificQueryMatch "zzz" c = false) ∧
    process_page ["Alpha", "Beta"] ["q"] (some "zzz") = .ok (.titles ["Alpha", "Beta"]) :=
  ⟨by decide, by decide,
    (process_page_hint_resolution ["Alpha", "Beta"] ["q"] "zzz" (by decide)).2 (by decide)⟩

/-- C6: when the page fetch lands on a Wikipedia disambiguation page,
`parse_page_information` fails with the dedicated disambiguation error (the
`ValueError` realizing the spec's `AmbiguousPageError`) and never guesses a
page: no `.ok` result is possible. -/
theorem parse_page_information_disambiguation (wkPage : String → WkPageResult)
    (paragraphs : String → List String) (term : String)
    (h : wkPage term = .disambiguation) :
    parse_page_information wkPage paragraphs term =
      .error (.valueError
        "Arrived at a Wikipedia disambiguation. Try again with a pre-parsed specific term.") := by
  rw [parse_page_information, h]

/-- C6 (witness). -/
theorem parse_page_information_disambiguation_witness :
    parse_page_information (fun _ => .disambiguation) (fun _ => []) "Mercury" =
      .error (.valueError
        "Arrived at a Wikipedia disambiguation. Try again with a pre-parsed specific term.") :=
  parse_page_information_disambiguation (fun _ => .disambiguation) (fun _ => []) "Mercury" rfl

/-- C7: constructing an `InformationLoader` whose save location has a
non-existent parent directory fails with `NotADirectoryError` (the spec's
`StorageUnavailableError`); `loaderInit` has no access to the producer or
the file contents, so no producer call or file write can have occurred. -/
theorem loaderInit_missing_directory (α : Type) (pathExists : String → Bool)
    (save_location : String) (overwrite_data : Bool)
    (hne : save_location ≠ "") (hdir : pathExists (dirname save_location) = false) :
    loaderInit α pathExists save_location overwrite_data =
      .error (.notADirectoryError
        "The directory of the provided path does not exist, you need to provide an existing path directory.") := by
  rw [loaderInit, if_neg hne, if_pos (by simp [hdir])]

/-- C7 (witness). -/
theorem loaderInit_missing_directory_witness :
    ("data/file.pickle" : String) ≠ "" ∧
    loaderInit Nat (fun _ => false) "data/file.pickle" false =
      .error (.notADirectoryError
        "The directory of the provided path does not exist, you need to provide an existing path directory.") :=
  ⟨by decide, loaderInit_missing_directory Nat (fun _ => false) "data/file.pickle" false
    (by decide) rfl⟩

/-- C9: the scenario table — rows `["France", "1958"]`, `["Sources:", ""]`,
`["Japan", "1947 (current constitution)"]` — extracts to exactly the two
records France ↦ 1958 and Japan ↦ 1947; the `"Sources:"` row contributes
nothing (it is not a valid country name, and its second cell is blank). -/
theorem nation_founding_scenario :
    nation_founding_date_processing_function (is_valid_country scenarioNationDict)
      [["France", "1958"], ["Sources:", ""], ["Japan", "1947 (current constitution)"]] =
      .ok [("France", "1958"), ("Japan", "1947")] := by
  decide

/-- C10: every title returned by a multi-word `search_multiple_words` call
contains each query word as a case-insensitive substring. -/
theorem search_multiple_words_all_words (ws : String → Nat → List String)
    (words : List String) (thresh : Nat) (title : String)
    (hlen : 2 ≤ words.length) (hmem : title ∈ search_multiple_words ws words thresh) :
    ∀ t ∈ words, isSubStr (pyLower t) (pyLower title) = true := by
  match words, hlen with
  | w₁ :: w₂ :: rest, _ =>
    simp only [search_multiple_words] at hmem
    have hf := (List.mem_filter.mp hmem).2
    rw [List.all_eq_true] at hf
    intro t ht
    exact hf t ht

/-- C10 (witness). -/
theorem search_multiple_words_all_words_witness :
    (2 ≤ (["ab", "cd"] : List String).length) ∧
    ("xAbYcDz" ∈ search_multiple_words (fun _ _ => ["xAbYcDz", "nope"]) ["ab", "cd"] 20) ∧
    (∀ t ∈ (["ab", "cd"] : List String), isSubStr (pyLower t) (pyLower "xAbYcDz") = true) :=
  ⟨by decide, by decide,
    search_multiple_words_all_words (fun _ _ => ["xAbYcDz", "nope"]) ["ab", "cd"] 20 "xAbYcDz"
      (by decide) (by decide)⟩

/-- C3 (counterexample): a table whose first row has a date field with no
four-digit year (`"12 May"`) makes the whole extraction raise the re-raised
`IndexError`; in particular the successfully parsed `Japan` row is *not*
returned on its own, contradicting the claimed row-skip recovery
(no `MalformedFieldError` recovery exists in the code). -/
theorem nation_founding_no_recovery_counterexample :
    nation_founding_date_processing_function (is_valid_country scenarioNationDict)
      [["France", "12 May"], ["Japan", "1947"]] = .error .indexError ∧
    (Except.error PyError.indexError : Except PyError (List (String × String))) ≠
      .ok [("Japan", "1947")] := by
  decide

/-- The year-extraction loop fails (with the re-raised `IndexError`) exactly
when some zipped (nation, date) pair outside the manual skip list has no
four-digit year in its date. -/
theorem computeFoundingDatesGo_error_iff :
    ∀ (ps acc : List (String × String)),
      computeFoundingDatesGo acc ps = .error .indexError ↔
        ∃ p ∈ ps, p.1 ∉ skipNations ∧ firstFourDigits p.2 = none := by
  intro ps
  induction ps with
  | nil => intro acc; simp [computeFoundingDatesGo]
  | cons p rest ih =>
    intro acc
    obtain ⟨n, d⟩ := p
    by_cases hmem : n ∈ skipNations
    · have hstep : computeFoundingDatesGo acc ((n, d) :: rest) =
          computeFoundingDatesGo acc rest := by
        simp [computeFoundingDatesGo, hmem]
      rw [hstep, ih]
      constructor
      · rintro ⟨q, hq, hc⟩
        exact ⟨q, List.mem_cons_of_mem _ hq, hc⟩
      · rintro ⟨q, hq, hc⟩
        rcases List.mem_cons.mp hq with heq | hm
        · rw [heq] at hc
          exact absurd hmem hc.1
        · exact ⟨q, hm, hc⟩
    · cases hffd : firstFourDigits d with
      | none =>
        have hstep : computeFoundingDatesGo acc ((n, d) :: rest) = .error .indexError := by
          simp [computeFoundingDatesGo, hmem, hffd]
        rw [hstep]
        constructor
        · intro _
          exact ⟨(n, d), List.mem_cons_self _ _, hmem, hffd⟩
        · intro _
          rfl
      | some y =>
        have hstep : computeFoundingDatesGo acc ((n, d) :: rest) =
            computeFoundingDatesGo (dictInsert acc n y) rest := by
          simp [computeFoundingDatesGo, hmem, hffd]
        rw [hstep, ih]
        constructor
        · rintro ⟨q, hq, hc⟩
          exact ⟨q, List.mem_cons_of_mem _ hq, hc⟩
        · rintro ⟨q, hq, hc⟩
          rcases List.mem_cons.mp hq with heq | hm
          · rw [heq] at hc
            simp [hffd] at hc
          · exact ⟨q, hm, hc⟩

/-- C3 (amended): a declared numeric (year) field that fails to parse is not
recovered from — there is no `MalformedFieldError` and no row skip; the
error propagates and aborts the entire extraction, returning no rows at
all.  Precisely: when the row scan succeeds with trackers `st`, the
extraction fails (with `IndexError`) iff some tracked pair outside the
manual skip list has no parsable four-digit year. -/
theorem nation_founding_parse_failure_aborts (valid : String → Bool)
    (rows : List (List String)) (st : ExtractState)
    (h : processRows valid rows ⟨[], []⟩ = .ok st) :
    nation_founding_date_processing_function valid rows = .error .indexError ↔
      ∃ p ∈ st.nations.zip st.dates,
        p.1 ∉ skipNations ∧ firstFourDigits p.2 = none := by
  rw [nation_founding_date_processing_function, h]
  show computeFoundingDates (st.nations.zip st.dates) = .error .indexError ↔ _
  rw [computeFoundingDates]
  exact computeFoundingDatesGo_error_iff (st.nations.zip st.dates) []

/-- C3 (amended, witness). -/
theorem nation_founding_parse_failure_aborts_witness :
    (processRows (is_valid_country scenarioNationDict)
        [["France", "12 May"], ["Japan", "1947"]] ⟨[], []⟩ =
      .ok ⟨["France", "Japan"], ["12 May", "1947"]⟩) ∧
    (nation_founding_date_processing_function (is_valid_country scenarioNationDict)
        [["France", "12 May"], ["Japan", "1947"]] = .error .indexError ↔
      ∃ p ∈ ((⟨["France", "Japan"], ["12 May", "1947"]⟩ : ExtractState)).nations.zip
          ((⟨["France", "Japan"], ["12 May", "1947"]⟩ : ExtractState)).dates,
        p.1 ∉ skipNations ∧ firstFourDigits p.2 = none) :=
  ⟨by decide,
    nation_founding_parse_failure_aborts (is_valid_country scenarioNationDict)
      [["France", "12 May"], ["Japan", "1947"]] ⟨["France", "Japan"], ["12 May", "1947"]⟩
      (by decide)⟩

/-! ## Resolver lemmas (for C4 and C5) -/

/-- A `bypass=False` call of `list_of_search_results` with any positive fuel
returns a single plain search immediately: it never fans out and never
recurses further. -/
theorem los_false_eq (ws : String → Nat → List String) (nd : List (List String))
    (f : Nat) (skip : Bool) (terms : List String) :
    list_of_search_results ws nd (f + 1) false skip terms =
      some (plainOutput ws (splitSpaced terms), [terms]) := rfl

/-- `fanout` only depends on the pointwise behaviour of its inner call. -/
theorem fanout_congr (inner₁ inner₂ : List String → Option (List String × List (List String)))
    (h : ∀ ts, inner₁ ts = inner₂ ts) :
    ∀ (codes fts : List String), fanout inner₁ fts codes = fanout inner₂ fts codes := by
  intro codes
  induction codes with
  | nil => intro fts; rfl
  | cons code rest ih => intro fts; simp only [fanout, h, ih]

/-- `fanout` over an always-successful inner call is successful. -/
theorem fanout_isSome (inner : List String → Option (List String × List (List String)))
    (h : ∀ ts, (inner ts).isSome = true) :
    ∀ (codes fts : List String), (fanout inner fts codes).isSome = true := by
  intro codes
  induction codes with
  | nil => intro fts; rfl
  | cons code rest ih =>
    intro fts
    obtain ⟨⟨o, tr⟩, hv⟩ := Option.isSome_iff_exists.mp (h (fts ++ [code]))
    obtain ⟨⟨os, trs⟩, hw⟩ := Option.isSome_iff_exists.mp (ih ((fts ++ [code]).erase code))
    simp [fanout, hv, hw]

/-- Appending an element and then removing its first occurrence (Python
`list.append` then `list.remove`) permutes the original list. -/
theorem erase_append_singleton_perm (fts : List String) (code : String) :
    List.Perm ((fts ++ [code]).erase code) fts := by
  by_cases h : code ∈ fts
  · rw [List.erase_append_left _ h]
    exact (List.perm_append_comm).trans (List.perm_cons_erase h).symm
  · rw [List.erase_append_right _ h]
    simp

/-- The fan-out loop over an inner call that performs one plain search per
invocation: it performs exactly one inner search per code, the i-th over a
permutation of the filtered terms plus that code, and returns the
concatenation of the per-code outputs. -/
theorem fanout_of_some (g : List String → List String)
    (inner : List String → Option (List String × List (List String)))
    (h : ∀ ts, inner ts = some (g ts, [ts])) :
    ∀ (codes fts : List String),
      ∃ trace : List (List String),
        fanout inner fts codes = some ((trace.map g).flatten, trace) ∧
        trace.length = codes.length ∧
        ∀ i (hi : i < codes.length) (hj : i < trace.length),
          List.Perm (trace.get ⟨i, hj⟩) (fts ++ [codes.get ⟨i, hi⟩]) := by
  intro codes
  induction codes with
  | nil =>
    intro fts
    exact ⟨[], rfl, rfl, fun i hi => absurd hi (Nat.not_lt_zero i)⟩
  | cons code rest ih =>
    intro fts
    obtain ⟨trace', heq, hlen, hperm⟩ := ih ((fts ++ [code]).erase code)
    refine ⟨(fts ++ [code]) :: trace', ?_, by simp [hlen], ?_⟩
    · simp [fanout, h, heq]
    · intro i hi hj
      match i with
      | 0 => exact List.Perm.refl _
      | i + 1 =>
        have hp := hperm i (Nat.lt_of_succ_lt_succ hi) (Nat.lt_of_succ_lt_succ hj)
        exact hp.trans ((erase_append_singleton_perm fts code).append_right _)

/-- `_parse_query_for_conditions` only depends on the pointwise behaviour of
the recursive `bypass=False` call. -/
theorem parse_conds_congr
    (inner₁ inner₂ : List String → Option (List String × List (List String)))
    (h : ∀ ts, inner₁ ts = inner₂ ts) (nd : List (List String)) (skip : Bool)
    (terms : List String) :
    _parse_query_for_conditions inner₁ nd skip terms =
      _parse_query_for_conditions inner₂ nd skip terms := by
  rcases hn : findFirstMatch nd terms with _ | ⟨t, vp⟩
  · rcases hg : findFirstMatch _REPLACEMENT_QUERIES terms with _ | ⟨t', g⟩
    · by_cases hs : skip <;> simp [_parse_query_for_conditions, hn, hg, hs, h]
    · by_cases hs : skip <;>
        simp [_parse_query_for_conditions, hn, hg, hs, h, fanout_congr inner₁ inner₂ h]
  · simp [_parse_query_for_conditions, hn, fanout_congr inner₁ inner₂ h]

/-- `_parse_query_for_conditions` over an always-successful inner call is
successful. -/
theorem parse_conds_isSome
    (inner : List String → Option (List String × List (List String)))
    (h : ∀ ts, (inner ts).isSome = true) (nd : List (List String)) (skip : Bool)
    (terms : List String) :
    (_parse_query_for_conditions inner nd skip terms).isSome = true := by
  rcases hn : findFirstMatch nd terms with _ | ⟨t, vp⟩
  · rcases hg : findFirstMatch _REPLACEMENT_QUERIES terms with _ | ⟨t', g⟩
    · by_cases hs : skip <;> simp [_parse_query_for_conditions, hn, hg, hs, h]
    · by_cases hs : skip <;>
        simp [_parse_query_for_conditions, hn, hg, hs, h, fanout_isSome inner h]
  · simp [_parse_query_for_conditions, hn, fanout_isSome inner h]

/-- C5: query resolution always terminates, and the bound is the one-shot
`bypass` mechanism: (1) fuel 2 (one fan-out layer over plain searches)
always resolves; (2) any further fuel changes nothing — the recursion never
goes deeper; (3) the recursive `bypass=False` calls return a single plain
search without attempting any dictionary fan-out. -/
theorem list_of_search_results_terminates (ws : String → Nat → List String)
    (nd : List (List String)) :
    (∀ skip terms, (list_of_search_results ws nd 2 true skip terms).isSome = true) ∧
    (∀ f bypass skip terms,
        list_of_search_results ws nd (f + 2) bypass skip terms =
          list_of_search_results ws nd 2 bypass skip terms) ∧
    (∀ f skip terms,
        list_of_search_results ws nd (f + 1) false skip terms =
          some (plainOutput ws (splitSpaced terms), [terms])) := by
  refine ⟨?_, ?_, los_false_eq ws nd⟩
  · intro skip terms
    show (_parse_query_for_conditions
        (fun ts => list_of_search_results ws nd 1 false false ts) nd skip
        (splitSpaced terms)).isSome = true
    exact parse_conds_isSome _ (fun ts => by rw [los_false_eq ws nd 0]; rfl) nd skip _
  · intro f bypass skip terms
    cases bypass
    · exact (los_false_eq ws nd (f + 1) skip terms).trans (los_false_eq ws nd 1 skip terms).symm
    · show _parse_query_for_conditions
          (fun ts => list_of_search_results ws nd (f + 1) false false ts) nd skip
          (splitSpaced terms) =
        _parse_query_for_conditions
          (fun ts => list_of_search_results ws nd 1 false false ts) nd skip
          (splitSpaced terms)
      exact parse_conds_congr _ _
        (fun ts => (los_false_eq ws nd f false ts).trans (los_false_eq ws nd 0 false ts).symm)
        nd skip _

/-- C4 (counterexample): `"president"` belongs to a synonym group, and the
query `["france", "president"]` contains it; but because `"france"` is a
nation alias and the nation fan-out runs first and returns, resolution
performs only the two per-alias searches `["president", "france"]` and
`["president", "fr"]` — no search ever considers the fellow group member
`"prime minister"`, so the claimed one-search-per-group-member property
fails. -/
theorem synonym_fanout_counterexample :
    (["president", "presidents", "prime minister", "prime ministers"] ∈ _REPLACEMENT_QUERIES) ∧
    ("president" ∈ (["president", "presidents", "prime minister", "prime ministers"] : List String)) ∧
    ("president" ∈ (["france", "president"] : List String)) ∧
    list_of_search_results wsEmpty [["france", "fr"]] 2 true false ["france", "president"] =
      some ([], [["president", "france"], ["president", "fr"]]) ∧
    (∀ call ∈ ([["president", "france"], ["president", "fr"]] : List (List String)),
      ¬ "prime minister" ∈ call) := by
  decide

/-- C4 (amended): when no (split) query term is a registered nation alias —
a nation alias preempts synonym expansion entirely — and some term belongs
to a synonym group, resolution fans out once per member of the first
matching term's group: it performs exactly one plain search per member, the
i-th over (a permutation of) the remaining terms plus that member, and
returns the concatenation of the per-member search results, whose elements
are exactly the union of the per-member result sets. -/
theorem synonym_fanout_union (ws : String → Nat → List String)
    (nd : List (List String)) (terms : List String) (t : String) (G : List String) (f : Nat)
    (hnat : findFirstMatch nd (splitSpaced terms) = none)
    (hgrp : findFirstMatch _REPLACEMENT_QUERIES (splitSpaced terms) = some (t, G)) :
    ∃ out trace,
      list_of_search_results ws nd (f + 2) true false terms = some (out, trace) ∧
      out = (trace.map (fun ts => plainOutput ws (splitSpaced ts))).flatten ∧
      trace.length = G.length ∧
      (∀ i (hi : i < G.length) (hj : i < trace.length),
        List.Perm (trace.get ⟨i, hj⟩)
          ((splitSpaced terms).erase t ++ [G.get ⟨i, hi⟩])) ∧
      (∀ x, x ∈ out ↔ ∃ ts ∈ trace, x ∈ plainOutput ws (splitSpaced ts)) := by
  have hstep : list_of_search_results ws nd (f + 2) true false terms =
      fanout (fun ts => list_of_search_results ws nd (f + 1) false false ts)
        ((splitSpaced terms).erase t) G := by
    show _parse_query_for_conditions
        (fun ts => list_of_search_results ws nd (f + 1) false false ts) nd false
        (splitSpaced terms) = _
    rw [_parse_query_for_conditions, hnat, hgrp]
    simp
  obtain ⟨trace, heq, hlen, hperm⟩ :=
    fanout_of_some (fun ts => plainOutput ws (splitSpaced ts))
      (fun ts => list_of_search_results ws nd (f + 1) false false ts)
      (fun ts => los_false_eq ws nd f false ts) G ((splitSpaced terms).erase t)
  refine ⟨(trace.map (fun ts => plainOutput ws (splitSpaced ts))).flatten, trace,
    hstep.trans heq, rfl, hlen, hperm, ?_⟩
  intro x
  simp [List.mem_flatten]

/-- C4 (amended, witness): the nation-free query `["president"]` fans out
over all four members of its synonym group. -/
theorem synonym_fanout_union_witness :
    (findFirstMatch ([] : List (List String)) (splitSpaced ["president"]) = none) ∧
    (findFirstMatch _REPLACEMENT_QUERIES (splitSpaced ["president"]) =
      some ("president", ["president", "presidents", "prime minister", "prime ministers"])) ∧
    ∃ out trace,
      list_of_search_results wsEmpty [] 2 true false ["president"] = some (out, trace) ∧
      out = (trace.map (fun ts => plainOutput wsEmpty (splitSpaced ts))).flatten ∧
      trace.length = (["president", "presidents", "prime minister", "prime ministers"] : List String).length :=
  ⟨by decide, by decide, by
    obtain ⟨out, trace, h1, h2, h3, _, _⟩ :=
      synonym_fanout_union wsEmpty [] ["president"] "president"
        ["president", "presidents", "prime minister", "prime ministers"] 0
        (by decide) (by decide)
    exact ⟨out, trace, h1, h2, h3⟩⟩

/-! ## Loader lemmas (for C1 and C8) -/

/-- A loaded state short-circuits: `_load_or_parse` returns the memoized
data, changes nothing, and performs no producer call and no store read. -/
theorem load_or_parse_loaded {α : Type} (fs : FS α) (p : α) (st : LoaderState α)
    (h : st.is_loaded = true) : _load_or_parse fs p st = (st.data, st, 0) := by
  simp [_load_or_parse, h]

/-- `_load_or_parse` always leaves the state loaded. -/
theorem load_or_parse_sets_loaded {α : Type} (fs : FS α) (p : α) (st : LoaderState α) :
    ((_load_or_parse fs p st).2.1).is_loaded = true := by
  by_cases h : st.is_loaded = true
  · simp [_load_or_parse, h]
  · by_cases how : st.overwrite_data = true
    · simp [_load_or_parse, h, how]
    · rcases hfs : fs st.save_location with _ | w <;> simp [_load_or_parse, h, how, hfs]

/-- One `_load_or_parse` performs at most one producer call. -/
theorem load_or_parse_calls_le_one {α : Type} (fs : FS α) (p : α) (st : LoaderState α) :
    (_load_or_parse fs p st).2.2 ≤ 1 := by
  by_cases h : st.is_loaded = true
  · simp [_load_or_parse, h]
  · by_cases how : st.overwrite_data = true
    · simp [_load_or_parse, h, how]
    · rcases hfs : fs st.save_location with _ | w <;> simp [_load_or_parse, h, how, hfs]

/-- Saving twice in a row from the same state is the same as saving once:
after the first `__exit__` the file exists, so a second `__exit__` either
leaves it alone (`overwrite_data = false`) or rewrites the same data. -/
theorem exitSave_idem {α : Type} (fs : FS α) (st : LoaderState α) :
    exitSave (exitSave fs st) st = exitSave fs st := by
  funext x
  rcases hfs : fs st.save_location with _ | w <;> cases how : st.overwrite_data <;>
    simp [exitSave, fsWrite, hfs, how] <;> split_ifs <;> simp_all

/-- A `with` block from a loaded state returns the memoized data, keeps the
state, and performs no producer call. -/
theorem scopedUse_loaded {α : Type} (fs : FS α) (p : α) (st : LoaderState α)
    (h : st.is_loaded = true) : scopedUse fs p st = ⟨st.data, st, exitSave fs st, 0⟩ := by
  simp [scopedUse, load_or_parse_loaded fs p st h]

/-- Repeated `with` blocks from a loaded state perform no producer calls. -/
theorem scopedUses_loaded_calls {α : Type} (p : α) (k : Nat) :
    ∀ (fs : FS α) (st : LoaderState α), st.is_loaded = true →
      (scopedUses p k fs st).2.2 = 0 := by
  induction k with
  | zero => intro fs st _; rfl
  | succ k ih =>
    intro fs st h
    simp only [scopedUses, scopedUse_loaded fs p st h]
    rw [ih (exitSave fs st) st h]

/-- Repeated `with` blocks from a loaded state whose save is already stable
change nothing at all. -/
theorem scopedUses_loaded_stable {α : Type} (p : α) (k : Nat) (fs : FS α)
    (st : LoaderState α) (h : st.is_loaded = true) (hfs : exitSave fs st = fs) :
    scopedUses p k fs st = (st, fs, 0) := by
  induction k with
  | zero => rfl
  | succ k ih => simp only [scopedUses, scopedUse_loaded fs p st h, hfs, ih]

/-- After the first `with` block, further blocks change nothing: same final
state, same filesystem, no further producer calls. -/
theorem scopedUses_succ_eq_one {α : Type} (p : α) (fs : FS α) (loc : String) (ow : Bool)
    (k : Nat) :
    scopedUses p (k + 1) fs ⟨loc, ow, false, none⟩ =
      scopedUses p 1 fs ⟨loc, ow, false, none⟩ := by
  have hload : ((_load_or_parse fs p ⟨loc, ow, false, none⟩).2.1).is_loaded = true :=
    load_or_parse_sets_loaded fs p _
  have hfs : exitSave (exitSave fs (_load_or_parse fs p ⟨loc, ow, false, none⟩).2.1)
      (_load_or_parse fs p ⟨loc, ow, false, none⟩).2.1 =
      exitSave fs (_load_or_parse fs p ⟨loc, ow, false, none⟩).2.1 :=
    exitSave_idem fs _
  simp only [scopedUses, scopedUse]
  rw [scopedUses_loaded_stable p k _ _ hload hfs]

/-- C1: with `overwrite_data = false` and an existing backing file, entering
the scoped block returns the stored value with zero producer calls; across
any number of repeated scoped uses of one loader (any overwrite setting)
the producer runs at most once; and after the first scoped use, further
uses return the memoized result and leave state and backing store exactly
as they were. -/
theorem informationLoader_hit_and_memoized {α : Type} (fs : FS α) (p : α) (loc : String)
    (v : Option α) (h : fs loc = some v) :
    _load_or_parse fs p ⟨loc, false, false, none⟩ = (v, ⟨loc, false, true, v⟩, 0) ∧
    (∀ (β : Type) (fs' : FS β) (p' : β) (loc' : String) (ow : Bool) (k : Nat),
        (scopedUses p' k fs' ⟨loc', ow, false, none⟩).2.2 ≤ 1) ∧
    (∀ k, scopedUses p (k + 1) fs ⟨loc, false, false, none⟩ =
        scopedUses p 1 fs ⟨loc, false, false, none⟩) := by
  refine ⟨by simp [_load_or_parse, h], ?_, fun k => scopedUses_succ_eq_one p fs loc false k⟩
  intro β fs' p' loc' ow k
  match k with
  | 0 => exact Nat.zero_le 1
  | k + 1 =>
    have hload : ((_load_or_parse fs' p' ⟨loc', ow, false, none⟩).2.1).is_loaded = true :=
      load_or_parse_sets_loaded fs' p' _
    simp only [scopedUses, scopedUse]
    rw [scopedUses_loaded_calls p' k _ _ hload]
    simpa using load_or_parse_calls_le_one fs' p' ⟨loc', ow, false, none⟩

/-- Filesystem for the C1 witness: the backing file already exists. -/
def fsWithFile : FS Nat := fun x => if x = "data/info.pickle" then some (some 7) else none

/-- C1 (witness). -/
theorem informationLoader_hit_and_memoized_witness :
    (fsWithFile "data/info.pickle" = some (some 7)) ∧
    _load_or_parse fsWithFile 9 ⟨"data/info.pickle", false, false, none⟩ =
      (some 7, ⟨"data/info.pickle", false, true, some 7⟩, 0) :=
  ⟨rfl, (informationLoader_hit_and_memoized fsWithFile 9 "data/info.pickle" (some 7) rfl).1⟩

/-- C8: for a fresh key (no backing file), one scoped use returns exactly
the producer output, persists exactly it at the key on exit, and a later
fresh loader for the same key (overwrite off) deserializes exactly that
value back — with zero further producer calls, whatever its own producer
would return. -/
theorem informationLoader_roundtrip {α : Type} (fs : FS α) (p p' : α) (loc : String)
    (ow : Bool) (h : fs loc = none) :
    (scopedUse fs p ⟨loc, ow, false, none⟩).result = some p ∧
    (scopedUse fs p ⟨loc, ow, false, none⟩).fs loc = some (some p) ∧
    _load_or_parse (scopedUse fs p ⟨loc, ow, false, none⟩).fs p' ⟨loc, false, false, none⟩ =
      (some p, ⟨loc, false, true, some p⟩, 0) := by
  cases ow <;> simp [scopedUse, _load_or_parse, exitSave, fsWrite, h]

/-- Filesystem for the C8 witness: no files at all. -/
def fsNoFiles : FS Nat := fun _ => none

/-- C8 (witness). -/
theorem informationLoader_roundtrip_witness :
    (fsNoFiles "data/info.pickle" = none) ∧
    (scopedUse fsNoFiles 7 ⟨"data/info.pickle", false, false, none⟩).result = some 7 ∧
    _load_or_parse (scopedUse fsNoFiles 7 ⟨"data/info.pickle", false, false, none⟩).fs 9
      ⟨"data/info.pickle", false, false, none⟩ =
      (some 7, ⟨"data/info.pickle", false, true, some 7⟩, 0) :=
  ⟨rfl,
    (informationLoader_roundtrip fsNoFiles 7 9 "data/info.pickle" false rfl).1,
    (informationLoader_roundtrip fsNoFiles 7 9 "data/info.pickle" false rfl).2.2⟩

end HistoryVisualized
